import Mathlib

/-!
Shallow embedding of `electrum_nmc/interface.py` (per-peer Electrum protocol
interface) and proofs about its header-sync state machine, notification
session, checkpoint validation and server-address codec.

Modelling conventions:
* Python byte strings are `List Nat`; Python strings are `List Char` where
  character-level structure matters (the address codec) and `String` where it
  does not (method names, error messages).
* External collaborators (`blockchain.check_header`, `blockchain.can_connect`,
  `blockchain.root_from_proof`, `sha256d`, the network) are passed in as
  explicit function arguments ("oracles"): the source awaits their results and
  branches on them, so each embedded operation is a function of those results.
* `async` methods that can raise become `Except String` values; an
  `AssertionError` or a `GracefulDisconnect` both surface as `.error` with a
  message matching the source.
* Python `while` loops become fuel-indexed recursion; running out of fuel is a
  distinguished outcome that no theorem counts as evidence.
-/

namespace ElectrumNmc

/-! ## 4.A Server address codec (`deserialize_server` / `serialize_server`) -/

/-- ASCII whitespace accepted (and stripped) by Python `int(str)`.
Non-ASCII whitespace accepted by CPython is not modelled. -/
def isPyWs (c : Char) : Bool :=
  c = ' ' || c = '\t' || c = '\n' || c = '\r' || c = Char.ofNat 11 || c = Char.ofNat 12

/-- Strip leading and trailing Python whitespace, as `int(str)` does. -/
def stripWs (l : List Char) : List Char :=
  ((l.dropWhile isPyWs).reverse.dropWhile isPyWs).reverse

/-- Digit-run parser for Python `int(str)`: decimal digits with single
underscores allowed only between digits (CPython >= 3.6). `acc` is the value
of the digits consumed so far. -/
def pyDigitsGo (acc : Nat) (l : List Char) : Option Nat :=
  match l with
  | [] => some acc
  | c :: rest =>
    if c.isDigit then pyDigitsGo (acc * 10 + (c.toNat - 48)) rest
    else if c = '_' then
      match rest with
      | [] => none
      | d :: rest2 =>
        if d.isDigit then pyDigitsGo (acc * 10 + (d.toNat - 48)) rest2 else none
    else none

/-- A digit run must start with a digit (Python rejects a leading underscore). -/
def pyDigits (l : List Char) : Option Nat :=
  match l with
  | [] => none
  | c :: _ => if c.isDigit then pyDigitsGo 0 l else none

/-- Python `int(str)`: strip whitespace, optional sign, digit run.
Returns `none` where CPython raises `ValueError`. -/
def pythonInt (s : List Char) : Option Int :=
  match stripWs s with
  | [] => none
  | c :: rest =>
    if c = '+' then (pyDigits rest).map (fun n => (n : Int))
    else if c = '-' then (pyDigits rest).map (fun n => -(n : Int))
    else (pyDigits (c :: rest)).map (fun n => (n : Int))

/-- Split a character list at its last `':'`: returns (part before, part
after). `none` when no colon occurs. One step of Python `str.rsplit(":")`. -/
def splitLastColon (l : List Char) : Option (List Char × List Char) :=
  match l.reverse.dropWhile (fun c => c != ':') with
  | [] => none
  | _ :: before =>
    some (before.reverse, (l.reverse.takeWhile (fun c => c != ':')).reverse)

/-- Python `server_str.rsplit(":", 2)` unpacked into exactly three fields;
`none` models the `ValueError` raised when fewer than three fields result. -/
def rsplit2Colon (l : List Char) : Option (List Char × List Char × List Char) :=
  match splitLastColon l with
  | none => none
  | some (rest1, protocol) =>
    match splitLastColon rest1 with
    | none => none
    | some (host, port) => some (host, port, protocol)

/-- `deserialize_server` from interface.py: rsplit into host, port, protocol;
reject empty host, protocol outside s/t, non-numeric port, out-of-range port.
The port is returned in its string form, as in the source. -/
def deserialize_server (s : List Char) :
    Except String (List Char × List Char × List Char) :=
  match rsplit2Colon s with
  | none => .error "not enough values to unpack"
  | some (host, port, protocol) =>
    if host = [] then .error "host must not be empty"
    else if protocol ≠ ['s'] ∧ protocol ≠ ['t'] then .error "invalid network protocol"
    else
      match pythonInt port with
      | none => .error "invalid literal for int"
      | some p =>
        if 0 < p ∧ p < 65536 then .ok (host, port, protocol)
        else .error "port is out of valid range"

/-- `serialize_server`: join host, port, protocol with `':'`. -/
def serialize_server (host port protocol : List Char) : List Char :=
  host ++ ':' :: (port ++ ':' :: protocol)

/-! ## 4.C Notification session framer limit -/

/-- `NotificationSession.__init__` sets `self.framer.max_size = 20000000`
(the source comment calls this "20 MB"). -/
def framer_max_size : Nat := 20000000

/-- Modelled from the spec: the aiorpcx framer (not part of this repository)
rejects any inbound frame larger than `max_size` as a protocol error, so a
frame is accepted exactly when its size is at most `framer_max_size`. -/
def frame_accepted (size : Nat) : Bool :=
  decide (size ≤ framer_max_size)

/-- 20 MiB, the size named by the spec sentence under test. -/
def twentyMiB : Nat := 20 * 1024 * 1024

/-! ## 4.G `run_fetch_blocks` tip processing and `mark_ready` -/

/-- The Interface state visible to the tip watcher: the advertised tip, whether
a tip header has been stored, and the state of the single-shot `ready` future. -/
structure IfaceTipState where
  tip : Nat
  tipHeaderSet : Bool
  readyCancelled : Bool
  readyDone : Bool
deriving DecidableEq

/-- `Interface.mark_ready`: raise if the ready future was cancelled, return if
already done, otherwise fulfil it. The chain-binding side effect
(`blockchain.check_header` / `get_best_chain`, external collaborators) is not
observable through this state and is elided. -/
def mark_ready (st : IfaceTipState) : Except String IfaceTipState :=
  if st.readyCancelled then
    .error "conn establishment was too slow; ready future was cancelled"
  else if st.readyDone then .ok st
  else if st.tipHeaderSet = false then .error "assert tip_header"
  else .ok { st with readyDone := true }

/-- One iteration of the `run_fetch_blocks` loop for a tip notification at
`height`: store the tip (and its header), disconnect gracefully when the tip is
below `max_checkpoint()`, otherwise `mark_ready`. The second component is
`some msg` when the iteration raised. The downstream calls
(`_process_header_at_tip`, callbacks) follow only in the `none` case and are
outside this state. -/
def run_fetch_blocks_iter (cp : Nat) (st : IfaceTipState) (height : Nat) :
    IfaceTipState × Option String :=
  if height < cp then
    ({ st with tip := height, tipHeaderSet := true },
     some "server tip below max checkpoint")
  else
    match mark_ready { st with tip := height, tipHeaderSet := true } with
    | .error e => ({ st with tip := height, tipHeaderSet := true }, some e)
    | .ok st2 => (st2, none)

/-! ## 4.F `_resolve_potential_chain_fork_given_forkpoint` -/

/-- A block header as far as fork resolution observes it. -/
structure MockHeader where
  block_height : Int
deriving DecidableEq

/-- A chain object as far as fork resolution observes it. -/
structure BChain where
  height : Int
  forkpoint : Int
deriving DecidableEq

/-- `Interface._resolve_potential_chain_fork_given_forkpoint`. `checkO` is the
oracle for `blockchain.check_header` restricted to `bad_header` (true when the
header checks against some known chain); `forkfun` is `self.blockchain.fork`.
Returns the result pair together with the chain the interface is bound to
afterwards. Failed `assert`s surface as `.error`. -/
def resolve_potential_chain_fork_given_forkpoint
    (checkO : MockHeader → Bool) (forkfun : MockHeader → BChain)
    (chain : BChain) (good bad : Int) (bad_header : MockHeader) :
    Except String (String × Int × BChain) :=
  if good + 1 ≠ bad then .error "assert good plus one eq bad"
  else if bad ≠ bad_header.block_height then .error "assert bad eq block height"
  else if checkO bad_header then .error "bad_header must not check!"
  else if chain.height < good then .error "assert bh ge good"
  else if chain.height = good then .ok ("no_fork", good + 1, chain)
  else
    let b := forkfun bad_header
    if b.forkpoint ≠ bad then .error "assert forkpoint eq bad"
    else .ok ("fork", bad + 1, b)

/-! ## 4.D Checkpoint validator (`validate_checkpoint_result`) and 4.E
`get_block_header`

Byte strings are `List Nat`; the hex arguments of the source are modelled by
their `bytes.fromhex` decodings (`bfh`), so `bytes(reversed(bfh(x)))` is
`x.reverse`. `sha256d` (from `.crypto`) and `root_from_proof` (from
`.blockchain`) are external collaborators passed as oracles; `vroot` is
`constants.net.VERIFICATION_BLOCK_MERKLE_ROOT` decoded. -/

/-- `Interface.validate_checkpoint_result`: compare the byte-reversed received
merkle root with the byte-reversed expected one, then compare the root
reconstructed by `root_from_proof` from the double-SHA256 header hash and the
byte-reversed branches against the expected root. `.ok ()` means no exception. -/
def validate_checkpoint_result (vroot : List Nat)
    (sha256d : List Nat → List Nat)
    (root_from_proof : List Nat → List (List Nat) → Nat → List Nat)
    (merkle_root : List Nat) (merkle_branch : List (List Nat))
    (header : List Nat) (header_height : Nat) : Except String Unit :=
  let received_merkle_root := merkle_root.reverse
  let expected_merkle_root := vroot.reverse
  if received_merkle_root ≠ expected_merkle_root then
    .error "Sent unexpected merkle root"
  else
    let header_hash := sha256d header
    let byte_branches := merkle_branch.map List.reverse
    let proven_merkle_root := root_from_proof header_hash byte_branches header_height
    if proven_merkle_root ≠ expected_merkle_root then
      .error "Sent incorrect merkle branch"
    else .ok ()

/-- Server response to `blockchain.block.header`: either a bare hex header, or
a proof envelope carrying `root`, `branch` and `header` keys. -/
inductive BlockHeaderResponse where
  | plain (header : List Nat)
  | envelope (root : List Nat) (branch : List (List Nat)) (header : List Nat)
deriving DecidableEq

/-- `Interface.get_block_header` (the checkpoint-proof control flow): request
with `cp_height = max_checkpoint()` for heights at or below the checkpoint and
`cp_height = 0` above it, demand the proof envelope exactly when `cp_height`
is nonzero, and validate it. Returns the (still hex-encoded) header bytes and
`proof_was_provided`; the final `deserialize_header` call is an external
collaborator and is not modelled. -/
def get_block_header (cp : Nat) (vroot : List Nat)
    (sha256d : List Nat → List Nat)
    (root_from_proof : List Nat → List (List Nat) → Nat → List Nat)
    (height : Nat) (must_provide_proof : Bool)
    (res : BlockHeaderResponse) : Except String (List Nat × Bool) :=
  if height > cp ∧ must_provide_proof then
    .error "requested height is above checkpoint height"
  else
    let cp_height := if height > cp then 0 else cp
    match res with
    | .envelope root branch header =>
      if cp_height = 0 then
        .error "Received checkpoint validation data even though it was not requested."
      else
        match validate_checkpoint_result vroot sha256d root_from_proof
            root branch header height with
        | .error e => .error e
        | .ok _ => .ok (header, true)
    | .plain header =>
      if cp_height ≠ 0 then
        .error "Expected checkpoint validation data, did not receive it."
      else .ok (header, false)

/-! ## 4.C Notification session subscription state -/

/-- Association-list lookup with decidable key equality (Python `dict` get). -/
def lookupA {α β : Type} [DecidableEq α] (k : α) : List (α × β) → Option β
  | [] => none
  | (a, b) :: rest => if a = k then some b else lookupA k rest

/-- Association-list store (Python `dict` item assignment): replace the value
of an existing key in place, or append a fresh binding. -/
def updateA {α β : Type} [DecidableEq α] (k : α) (v : β) :
    List (α × β) → List (α × β)
  | [] => [(k, v)]
  | (a, b) :: rest => if a = k then (k, v) :: rest else (a, b) :: updateA k v rest

/-- Append one element to the list held at a key, creating the binding when
missing: Python `defaultdict(list)[k].append(v)`, and `queue.put` on the
queue-id-indexed view of the consumer queues. -/
def pushA {α β : Type} [DecidableEq α] (k : α) (v : β) :
    List (α × List β) → List (α × List β)
  | [] => [(k, [v])]
  | (a, vs) :: rest => if a = k then (a, vs ++ [v]) :: rest else (a, vs) :: pushA k v rest

/-- `NotificationSession.get_hashable_key_for_rpc_call` builds
`str(method) + repr(params)`; the key is modelled as the pair itself, which
that serialization determines. -/
def get_hashable_key_for_rpc_call {V : Type} (method : String) (params : List V) :
    String × List V :=
  (method, params)

/-- `NotificationSession` subscription state: `subscriptions` maps keys to the
registered consumer queues (by queue id, in registration order), `cache` holds
the single cached value per key, and `queues` records the messages put into
each consumer queue, in order. `V` is the type of JSON values. -/
structure NSession (V : Type) where
  subscriptions : List ((String × List V) × List Nat)
  cache : List ((String × List V) × V)
  queues : List (Nat × List (List V))
deriving DecidableEq

/-- `NotificationSession.subscribe`: register the queue under the key, then
either deliver the cached value or issue one `send_request` (whose response the
`oracle` argument supplies), cache it, and deliver it. The message put is
`params + [result]`. The second component lists the network requests issued.
The source appends to `subscriptions` before the cache lookup; the append does
not touch the cache, so the branch on the cache is taken first here and the
append happens in both branches. -/
def NSession.subscribe {V : Type} [DecidableEq V] (st : NSession V)
    (method : String) (params : List V) (queue : Nat) (oracle : V) :
    NSession V × List (String × List V) :=
  match lookupA (get_hashable_key_for_rpc_call method params) st.cache with
  | some result =>
    ({ st with
        subscriptions := pushA (get_hashable_key_for_rpc_call method params) queue
          st.subscriptions,
        queues := pushA queue (params ++ [result]) st.queues }, [])
  | none =>
    ({ st with
        subscriptions := pushA (get_hashable_key_for_rpc_call method params) queue
          st.subscriptions,
        cache := updateA (get_hashable_key_for_rpc_call method params) oracle st.cache,
        queues := pushA queue (params ++ [oracle]) st.queues },
     [(method, params)])

/-- `NotificationSession.handle_request` for an incoming `Notification` with
argument list `args`: split into `params = args[:-1]` and `result = args[-1]`,
then, when the key is known, write the cache and fan the full argument list out
to every registered queue; otherwise raise "unexpected request". An empty
argument list models the `IndexError` of `args[-1]`. -/
def NSession.handle_request {V : Type} [DecidableEq V] (st : NSession V)
    (method : String) (args : List V) : Except String (NSession V) :=
  match args.getLast? with
  | none => .error "IndexError"
  | some result =>
    let params := args.dropLast
    let key := get_hashable_key_for_rpc_call method params
    match lookupA key st.subscriptions with
    | some qs =>
      .ok { st with
              cache := updateA key result st.cache,
              queues := qs.foldl (fun acc q => pushA q args acc) st.queues }
    | none => .error "unexpected request"

/-- `NotificationSession.unsubscribe`: drop the first occurrence of the queue
from every key's list; keys themselves are never removed. -/
def NSession.unsubscribe {V : Type} [DecidableEq V] (st : NSession V)
    (queue : Nat) : NSession V :=
  { st with subscriptions := st.subscriptions.map (fun kv => (kv.1, kv.2.erase queue)) }

/-! ## 4.E `request_chunk` -/

/-- `Interface.request_chunk`. `chunks` is `self._requested_chunks`;
`req_headers` is the outcome of `await self.request_headers(index*2016, size)`
(`.ok (count, proof_was_provided)` with `count = res['count']`, `.error` when
it raised); `connect_chunk` is the result of
`self.blockchain.connect_chunk(...)` (both external collaborators). Returns
the call outcome (`.ok none` is the bare `return` of the early-exit path,
`.ok (some (conn, n))` the two-element tuple), the final `_requested_chunks`,
and the header requests issued as `(start_height, size)` pairs. -/
def request_chunk (chunks : List Nat) (height : Nat) (tip : Option Int)
    (can_return_early : Bool)
    (req_headers : Except String (Nat × Bool)) (connect_chunk : Bool) :
    Except String (Option (Bool × Nat)) × List Nat × List (Nat × Int) :=
  let index := height / 2016
  if can_return_early ∧ index ∈ chunks then
    (.ok none, chunks, [])
  else
    let size : Int := match tip with
      | none => 2016
      | some t => max (min 2016 (t - index * 2016 + 1)) 0
    -- the source computes a local cp_height here that request_headers recomputes;
    -- it is dead and not modelled
    let chunks1 := if index ∈ chunks then chunks else chunks ++ [index]
    let chunks2 := chunks1.filter (fun i => i ≠ index)
    match req_headers with
    | .error e => (.error e, chunks2, [(index * 2016, size)])
    | .ok (count, _proof) =>
      if connect_chunk = false then (.ok (some (false, 0)), chunks2, [(index * 2016, size)])
      else (.ok (some (true, count)), chunks2, [(index * 2016, size)])

/-! ## 4.F `sync_until` -/

/-- One iteration of the `sync_until` while loop, for loop state
`(last, height)` with parameters `next_height` and `cp = max_checkpoint()`.
`chunkf h` is the `(could_connect, num_headers)` outcome of
`await self.request_chunk(h, next_height)`, and `stepf h` the
`(last, height)` pair returned by `await self.step(h)` (both depend on
external collaborators). First component: the new `(last, height)` on normal
completion, `.error` when the iteration raised (graceful disconnect or a
failed `assert`). Second component: whether a chunk was requested. -/
def sync_until_body (cp next_height : Nat)
    (chunkf : Nat → Bool × Nat) (stepf : Nat → String × Nat)
    (last : Option String) (height : Nat) :
    Except String (Option String × Nat) :=
  if next_height > height + 10 then
    match chunkf height with
    | (could_connect, num_headers) =>
      if could_connect = false then
        if height ≤ cp then
          .error "server chain conflicts with checkpoints or genesis"
        else
          -- `continue`: the bottom-of-loop progress assert is skipped
          match stepf height with
          | (l, h) => .ok (some l, h)
      else
        if height / 2016 * 2016 + num_headers ≤ next_height + 1 then
          if last = some "catchup" ∧ height = height / 2016 * 2016 + num_headers then
            .error "had to prevent infinite loop in interface.sync_until"
          else .ok (some "catchup", height / 2016 * 2016 + num_headers)
        else .error "assert height le next_height plus one"
  else
    match stepf height with
    | (l, h) =>
      if last = some l ∧ height = h then
        .error "had to prevent infinite loop in interface.sync_until"
      else .ok (some l, h)

/-- One iteration of the `sync_until` loop paired with whether the iteration
took the chunk-request branch (`next_height > height + 10`). -/
def sync_until_iter (cp next_height : Nat)
    (chunkf : Nat → Bool × Nat) (stepf : Nat → String × Nat)
    (last : Option String) (height : Nat) :
    Except String (Option String × Nat) × Bool :=
  (sync_until_body cp next_height chunkf stepf last height,
   decide (next_height > height + 10))

/-- The `sync_until` loop, fuel-indexed: iterate while `last is None or
height <= next_height`. -/
def sync_until_loop (cp next_height : Nat)
    (chunkf : Nat → Bool × Nat) (stepf : Nat → String × Nat) :
    Nat → Option String → Nat → Except String (Option String × Nat)
  | 0, _, _ => .error "out of fuel"
  | fuel + 1, last, height =>
    if last = none ∨ height ≤ next_height then
      match (sync_until_iter cp next_height chunkf stepf last height).1 with
      | .error e => .error e
      | .ok (l, h) => sync_until_loop cp next_height chunkf stepf fuel l h
    else .ok (last, height)

/-! ## 4.F `_search_headers_backwards` -/

/-- Outcome of `_search_headers_backwards`: `done height bad` is the normal
return (the returned `header` is the one fetched at `height`, and `bad_header`
the one fetched at `bad`); `conflict` is
`GracefulDisconnect("server chain conflicts with checkpoints")`; `badCheck` is
the failed assert that a bad header must not check; `fuelOut` is exhausted
fuel, not a behaviour of the source. -/
inductive ShbOut where
  | done (height bad : Int)
  | conflict
  | badCheck
  | fuelOut
deriving DecidableEq

/-- The `while await iterate():` loop of `_search_headers_backwards`, started
with current `bad` and probe height `height`. `checkO h` / `connectO h` are
the oracles for `blockchain.check_header` / `blockchain.can_connect` applied
to the header the server returns for height `h`. Heights are integers because
`tip - 2*delta` may go negative. Also returns the list of heights actually
fetched, in order (after the checkpoint clamp, as in the source, where the
nonlocal `height` is clamped before the fetch). -/
def shbLoop (cp tip : Int) (checkO connectO : Int → Bool) :
    Nat → Int → Int → ShbOut × List Int
  | 0, _, _ => (.fuelOut, [])
  | fuel + 1, bad, height =>
    let hc := if height ≤ cp then cp else height
    if checkO hc || connectO hc then
      if checkO bad then (.badCheck, [hc]) else (.done hc bad, [hc])
    else if height ≤ cp then (.conflict, [hc])
    else
      let next := shbLoop cp tip checkO connectO fuel hc (tip - 2 * (tip - hc))
      (next.1, hc :: next.2)

/-- `Interface._search_headers_backwards` for a header at height `h` (the
non-mock path): assert the given header does not check, seed `bad = h`, start
probing at `min(local_max + 1, h - 1)` and run the loop. -/
def search_headers_backwards (cp tip localMax : Int)
    (checkO connectO : Int → Bool) (fuel : Nat) (h : Int) : ShbOut × List Int :=
  if checkO h then (.badCheck, [])
  else shbLoop cp tip checkO connectO fuel h (min (localMax + 1) (h - 1))

/-! ## Helper lemmas -/

theorem takeWhile_append_not (p : Char → Bool) (l : List Char) (c : Char) (m : List Char)
    (hl : ∀ a ∈ l, p a = true) (hc : p c = false) :
    (l ++ c :: m).takeWhile p = l := by
  induction l with
  | nil => simp [List.takeWhile_cons, hc]
  | cons a t ih =>
    have ha : p a = true := hl a (List.mem_cons_self a t)
    simp only [List.cons_append, List.takeWhile_cons, ha, if_true]
    rw [ih (fun x hx => hl x (List.mem_cons_of_mem a hx))]

theorem dropWhile_append_not (p : Char → Bool) (l : List Char) (c : Char) (m : List Char)
    (hl : ∀ a ∈ l, p a = true) (hc : p c = false) :
    (l ++ c :: m).dropWhile p = c :: m := by
  induction l with
  | nil => simp [List.dropWhile_cons, hc]
  | cons a t ih =>
    have ha : p a = true := hl a (List.mem_cons_self a t)
    simp only [List.cons_append, List.dropWhile_cons, ha, if_true]
    exact ih (fun x hx => hl x (List.mem_cons_of_mem a hx))

theorem dropWhile_eq_self_of_not (p : Char → Bool) (l : List Char)
    (h : ∀ c ∈ l, p c = false) : l.dropWhile p = l := by
  cases l with
  | nil => rfl
  | cons c t => simp [List.dropWhile_cons, h c (List.mem_cons_self c t)]

theorem splitLastColon_append (a b : List Char) (hb : ∀ c ∈ b, c ≠ ':') :
    splitLastColon (a ++ ':' :: b) = some (a, b) := by
  have hrev : (a ++ ':' :: b).reverse = b.reverse ++ ':' :: a.reverse := by
    simp
  have hball : ∀ c ∈ b.reverse, (c != ':') = true := by
    intro c hc
    simpa using hb c (List.mem_reverse.mp hc)
  have hcol : ((':' : Char) != ':') = false := by decide
  unfold splitLastColon
  rw [hrev, dropWhile_append_not _ _ _ _ hball hcol,
    takeWhile_append_not _ _ _ _ hball hcol]
  simp

theorem splitLastColon_serialize_outer (host port protocol : List Char)
    (hr : ∀ c ∈ protocol, c ≠ ':') :
    splitLastColon (serialize_server host port protocol)
      = some (host ++ ':' :: port, protocol) := by
  unfold serialize_server
  rw [show host ++ ':' :: (port ++ ':' :: protocol)
      = (host ++ ':' :: port) ++ ':' :: protocol by simp]
  exact splitLastColon_append _ _ hr

theorem rsplit2Colon_serialize (host port protocol : List Char)
    (hp : ∀ c ∈ port, c ≠ ':') (hr : ∀ c ∈ protocol, c ≠ ':') :
    rsplit2Colon (serialize_server host port protocol) = some (host, port, protocol) := by
  unfold rsplit2Colon
  rw [splitLastColon_serialize_outer _ _ _ hr]
  simp [splitLastColon_append _ _ hp]

/-- Value of a run of decimal digits, most significant first. -/
def digitsVal (l : List Char) : Nat :=
  l.foldl (fun a c => a * 10 + (c.toNat - 48)) 0

theorem pyDigitsGo_digits (l : List Char) : ∀ acc : Nat, (∀ c ∈ l, c.isDigit = true) →
    pyDigitsGo acc l = some (l.foldl (fun a c => a * 10 + (c.toNat - 48)) acc) := by
  induction l with
  | nil => intro acc _; rfl
  | cons c rest ih =>
    intro acc h
    have hc : c.isDigit = true := h c (List.mem_cons_self c rest)
    rw [pyDigitsGo.eq_def]
    simp only [hc, if_true, List.foldl_cons]
    exact ih _ (fun x hx => h x (List.mem_cons_of_mem c hx))

theorem isPyWs_eq_false_of_isDigit (c : Char) (h : c.isDigit = true) : isPyWs c = false := by
  by_contra hws
  have hws2 : isPyWs c = true := by
    cases hx : isPyWs c
    · exact absurd hx hws
    · rfl
  simp only [isPyWs, Bool.or_eq_true, decide_eq_true_eq] at hws2
  rcases hws2 with ((((h1 | h1) | h1) | h1) | h1) | h1 <;> subst h1 <;>
    exact absurd h (by decide)

theorem stripWs_eq_self (l : List Char) (h : ∀ c ∈ l, isPyWs c = false) :
    stripWs l = l := by
  unfold stripWs
  rw [dropWhile_eq_self_of_not _ _ h, dropWhile_eq_self_of_not, List.reverse_reverse]
  intro c hc
  exact h c (List.mem_reverse.mp hc)

theorem pythonInt_digits (l : List Char) (hne : l ≠ [])
    (hd : ∀ c ∈ l, c.isDigit = true) :
    pythonInt l = some ((digitsVal l : Nat) : Int) := by
  have hstrip : stripWs l = l :=
    stripWs_eq_self l (fun c hc => isPyWs_eq_false_of_isDigit c (hd c hc))
  cases l with
  | nil => exact absurd rfl hne
  | cons c rest =>
    have hc : c.isDigit = true := hd c (List.mem_cons_self c rest)
    have hplus : c ≠ '+' := by
      intro hcc; subst hcc; exact absurd hc (by decide)
    have hminus : c ≠ '-' := by
      intro hcc; subst hcc; exact absurd hc (by decide)
    unfold pythonInt
    rw [hstrip]
    simp only [hplus, hminus, if_false, pyDigits, hc, if_true]
    rw [pyDigitsGo_digits _ _ hd]
    rfl

/-! ## Claim theorems -/

/-- C3: under the preconditions `good + 1 == bad`, `bad` equals the bad
header's block height, and the bad header checks against no known chain,
`_resolve_potential_chain_fork_given_forkpoint` returns `('no_fork', good+1)`
with the binding unchanged when the bound chain's height equals `good`, and
when the bound chain is strictly higher it materializes the fork via
`fork(bad_header)`, rebinds to the resulting chain (whose forkpoint is `bad`),
and returns `('fork', bad+1)`. -/
theorem resolve_fork_spec (checkO : MockHeader → Bool) (forkfun : MockHeader → BChain)
    (chain : BChain) (good bad : Int) (bad_header : MockHeader)
    (h1 : good + 1 = bad) (h2 : bad = bad_header.block_height)
    (h3 : checkO bad_header = false) :
    (chain.height = good →
      resolve_potential_chain_fork_given_forkpoint checkO forkfun chain good bad bad_header
        = .ok ("no_fork", good + 1, chain)) ∧
    (good < chain.height → (forkfun bad_header).forkpoint = bad →
      resolve_potential_chain_fork_given_forkpoint checkO forkfun chain good bad bad_header
        = .ok ("fork", bad + 1, forkfun bad_header)) := by
  constructor
  · intro hbh
    have hnlt : ¬(chain.height < good) := by omega
    simp [resolve_potential_chain_fork_given_forkpoint, h1, h2, h3, hbh, hnlt]
  · intro hlt hfp
    have hne : chain.height ≠ good := by omega
    have hnlt : ¬(chain.height < good) := by omega
    simp [resolve_potential_chain_fork_given_forkpoint, h1, h2, h3, hfp, hne, hnlt]

/-- Witness for C3 at a concrete input: a bound chain at height 3 with
`good = 3`, `bad = 4` yields `('no_fork', 4)`. -/
theorem resolve_fork_spec_witness :
    resolve_potential_chain_fork_given_forkpoint (fun _ => false)
      (fun hd => ⟨5, hd.block_height⟩) ⟨3, 0⟩ 3 4 ⟨4⟩
      = .ok ("no_fork", 4, (⟨3, 0⟩ : BChain)) :=
  (resolve_fork_spec (fun _ => false) (fun hd => ⟨5, hd.block_height⟩) ⟨3, 0⟩ 3 4 ⟨4⟩
    (by decide) (by decide) rfl).1 rfl

/-- C5: a `blockchain.headers.subscribe` tip at height below
`max_checkpoint()` makes the tip watcher raise
"server tip below max checkpoint" without marking the interface ready (the
`ready` state is untouched by the raising iteration), and every iteration that
completes without raising leaves `tip = height ≥ max_checkpoint()` with the tip
header stored, so a surviving session's TipView satisfies the invariant. -/
theorem run_fetch_blocks_tip_spec (cp : Nat) (st : IfaceTipState) (height : Nat) :
    (height < cp →
      (run_fetch_blocks_iter cp st height).2 = some "server tip below max checkpoint" ∧
      ((run_fetch_blocks_iter cp st height).1).readyDone = st.readyDone) ∧
    ((run_fetch_blocks_iter cp st height).2 = none →
      ((run_fetch_blocks_iter cp st height).1).tip = height ∧
      cp ≤ ((run_fetch_blocks_iter cp st height).1).tip ∧
      ((run_fetch_blocks_iter cp st height).1).tipHeaderSet = true ∧
      ((run_fetch_blocks_iter cp st height).1).readyDone = true) := by
  obtain ⟨t, ths, rc, rd⟩ := st
  constructor
  · intro hlt
    simp [run_fetch_blocks_iter, hlt]
  · intro hnone
    by_cases hlt : height < cp
    · simp [run_fetch_blocks_iter, hlt] at hnone
    · have hle : cp ≤ height := Nat.le_of_not_lt hlt
      unfold run_fetch_blocks_iter at hnone ⊢
      rw [if_neg hlt] at hnone ⊢
      cases rc <;> cases rd <;> simp_all [mark_ready]

/-- Witness for C5 at a concrete input: checkpoint 100, tip notification at
height 99 raises the graceful disconnect. -/
theorem run_fetch_blocks_tip_spec_witness :
    (run_fetch_blocks_iter 100 ⟨0, false, false, false⟩ 99).2
      = some "server tip below max checkpoint" :=
  ((run_fetch_blocks_tip_spec 100 ⟨0, false, false, false⟩ 99).1 (by decide)).1

/-- C6 counterexample: the claim says the inbound frame limit equals 20 MiB,
but a frame of 20000001 bytes — well under 20 MiB — is rejected: the limit the
source sets is 20000000 bytes, which is not 20 MiB. -/
theorem frame_limit_not_twenty_mib :
    frame_accepted 20000001 = false ∧ 20000001 ≤ twentyMiB ∧
      framer_max_size ≠ twentyMiB := by
  refine ⟨by decide, by decide, by decide⟩

/-- C6 amended: the session's inbound frame size limit equals 20000000 bytes
(20 MB, not 20 MiB): every frame larger than 20000000 bytes is rejected as a
protocol error and frames up to 20000000 bytes are accepted by the framer. -/
theorem frame_limit_twenty_mb (size : Nat) :
    (size ≤ 20000000 → frame_accepted size = true) ∧
    (20000000 < size → frame_accepted size = false) := by
  constructor <;> intro h <;> simp [frame_accepted, framer_max_size] <;> omega

/-- Witness for C6 (amended) at a concrete input. -/
theorem frame_limit_twenty_mb_witness : frame_accepted 123 = true :=
  (frame_limit_twenty_mb 123).1 (by decide)

/-- C8: for every valid triple — non-empty host (colons allowed, as for IPv6
literals), port given as a non-empty digit string with value strictly between
0 and 65536, protocol `t` or `s` — deserializing the serialized form returns
the triple unchanged; and for any server string that rsplits into three
fields, `deserialize_server` raises on an empty host, on a protocol outside
`{s, t}`, on a port `int()` cannot parse, and on an out-of-range port. -/
theorem deserialize_serialize_server_spec :
    (∀ host port protocol : List Char, host ≠ [] → port ≠ [] →
      (∀ c ∈ port, c.isDigit = true) →
      0 < digitsVal port → digitsVal port < 65536 →
      (protocol = ['t'] ∨ protocol = ['s']) →
      deserialize_server (serialize_server host port protocol)
        = .ok (host, port, protocol)) ∧
    (∀ s host port protocol, rsplit2Colon s = some (host, port, protocol) →
      (host = [] → deserialize_server s = .error "host must not be empty") ∧
      (host ≠ [] → protocol ≠ ['s'] → protocol ≠ ['t'] →
        deserialize_server s = .error "invalid network protocol") ∧
      (host ≠ [] → (protocol = ['s'] ∨ protocol = ['t']) →
        pythonInt port = none →
        deserialize_server s = .error "invalid literal for int") ∧
      (∀ p : Int, host ≠ [] → (protocol = ['s'] ∨ protocol = ['t']) →
        pythonInt port = some p → ¬(0 < p ∧ p < 65536) →
        deserialize_server s = .error "port is out of valid range")) := by
  constructor
  · intro host port protocol hhost hpne hdig hlo hhi hproto
    have hp : ∀ c ∈ port, c ≠ ':' := by
      intro c hc hcc
      subst hcc
      exact absurd (hdig _ hc) (by decide)
    have hr : ∀ c ∈ protocol, c ≠ ':' := by
      rcases hproto with h | h <;> subst h <;> intro c hc <;> simp at hc <;>
        subst hc <;> decide
    unfold deserialize_server
    rw [rsplit2Colon_serialize _ _ _ hp hr]
    have hnps : ¬(protocol ≠ ['s'] ∧ protocol ≠ ['t']) := by
      rcases hproto with h | h <;> subst h <;> simp
    have hint := pythonInt_digits _ hpne hdig
    have hrange : (0 : Int) < ((digitsVal port : Nat) : Int) ∧
        ((digitsVal port : Nat) : Int) < 65536 :=
      ⟨by exact_mod_cast hlo, by exact_mod_cast hhi⟩
    simp [hhost, hnps, hint, hrange]
  · intro s host port protocol hsplit
    refine ⟨?_, ?_, ?_, ?_⟩
    · intro hh
      simp [deserialize_server, hsplit, hh]
    · intro hh hs ht
      simp [deserialize_server, hsplit, hh, hs, ht]
    · intro hh hst hint
      have hps : ¬(protocol ≠ ['s'] ∧ protocol ≠ ['t']) := by
        rcases hst with h | h <;> subst h <;> simp
      simp [deserialize_server, hsplit, hh, hps, hint]
    · intro p hh hst hint hrange
      have hps : ¬(protocol ≠ ['s'] ∧ protocol ≠ ['t']) := by
        rcases hst with h | h <;> subst h <;> simp
      simp [deserialize_server, hsplit, hh, hps, hint, hrange]

/-- Witness for C8 at a concrete input: `h:22:t` round-trips. -/
theorem deserialize_serialize_server_spec_witness :
    deserialize_server (serialize_server ['h'] ['2', '2'] ['t'])
      = .ok (['h'], ['2', '2'], ['t']) :=
  deserialize_serialize_server_spec.1 ['h'] ['2', '2'] ['t']
    (by decide) (by decide) (by decide) (by decide) (by decide) (Or.inl rfl)

/-- C9: when `can_return_early` is set and the chunk index is already being
fetched, `request_chunk` returns `None` (not a pair), issues no header request
and leaves `_requested_chunks` unchanged; in every other call the index is
absent from `_requested_chunks` afterwards — also when `request_headers`
raised — exactly one header request is issued, a raising `request_headers`
propagates, and a completed call returns the two-element tuple
`(conn, count)`, with count 0 when `connect_chunk` failed. -/
theorem request_chunk_spec (chunks : List Nat) (height : Nat) (tip : Option Int)
    (req_headers : Except String (Nat × Bool)) (connect_chunk : Bool) :
    (height / 2016 ∈ chunks →
      request_chunk chunks height tip true req_headers connect_chunk
        = (.ok none, chunks, [])) ∧
    (∀ can_return_early : Bool,
      ¬(can_return_early = true ∧ height / 2016 ∈ chunks) →
      height / 2016 ∉
        (request_chunk chunks height tip can_return_early req_headers connect_chunk).2.1 ∧
      (request_chunk chunks height tip can_return_early req_headers connect_chunk).2.2.length
        = 1 ∧
      (∀ e, req_headers = .error e →
        (request_chunk chunks height tip can_return_early req_headers connect_chunk).1
          = .error e) ∧
      (∀ count proof, req_headers = .ok (count, proof) →
        (request_chunk chunks height tip can_return_early req_headers connect_chunk).1
          = .ok (some (connect_chunk, if connect_chunk then count else 0)))) := by
  constructor
  · intro hmem
    simp [request_chunk, hmem]
  · intro can_return_early hnot
    have hnotm : ¬(can_return_early = true ∧ height / 2016 ∈ chunks) := hnot
    unfold request_chunk
    rw [if_neg (by simpa using hnotm)]
    refine ⟨?_, ?_, ?_, ?_⟩
    · cases req_headers with
      | error e => simp [List.mem_filter]
      | ok v =>
        obtain ⟨count, proof⟩ := v
        cases connect_chunk <;> simp [List.mem_filter]
    · cases req_headers with
      | error e => simp
      | ok v =>
        obtain ⟨count, proof⟩ := v
        cases connect_chunk <;> simp
    · intro e he
      subst he
      simp
    · intro count proof hok
      subst hok
      cases connect_chunk <;> simp

/-- Witness for C9 at a concrete input: index 1 (height 2016) already
requested, early return leaves the set untouched. -/
theorem request_chunk_spec_witness :
    request_chunk [1] 2016 none true (.ok (100, false)) true = (.ok none, [1], []) :=
  (request_chunk_spec [1] 2016 none (.ok (100, false)) true).1 (by decide)

theorem lookupA_pushA_self {α β : Type} [DecidableEq α] (k : α) (v : β)
    (l : List (α × List β)) :
    lookupA k (pushA k v l) = some ((lookupA k l).getD [] ++ [v]) := by
  induction l with
  | nil => simp [pushA, lookupA]
  | cons kv rest ih =>
    obtain ⟨a, vs⟩ := kv
    by_cases ha : a = k
    · subst ha
      simp [pushA, lookupA]
    · simp [pushA, lookupA, ha, ih]

theorem lookupA_pushA_ne {α β : Type} [DecidableEq α] (k k2 : α) (v : β)
    (l : List (α × List β)) (h : k ≠ k2) :
    lookupA k2 (pushA k v l) = lookupA k2 l := by
  induction l with
  | nil => simp [pushA, lookupA, h]
  | cons kv rest ih =>
    obtain ⟨a, vs⟩ := kv
    by_cases ha : a = k
    · subst ha
      simp [pushA, lookupA, h]
    · simp [pushA, lookupA, ha, ih]

theorem lookupA_updateA_self {α β : Type} [DecidableEq α] (k : α) (v : β)
    (l : List (α × β)) :
    lookupA k (updateA k v l) = some v := by
  induction l with
  | nil => simp [updateA, lookupA]
  | cons kv rest ih =>
    obtain ⟨a, b⟩ := kv
    by_cases ha : a = k
    · subst ha
      simp [updateA, lookupA]
    · simp [updateA, lookupA, ha, ih]

theorem lookupA_map_snd {α β γ : Type} [DecidableEq α] (k : α) (f : α → β → γ)
    (l : List (α × β)) :
    lookupA k (l.map (fun kv => (kv.1, f kv.1 kv.2)))
      = (lookupA k l).map (fun b => f k b) := by
  induction l with
  | nil => simp [lookupA]
  | cons kv rest ih =>
    obtain ⟨a, b⟩ := kv
    by_cases ha : a = k
    · subst ha
      simp [lookupA]
    · simp [lookupA, ha, ih]

/-- C7: `subscribe(method, params, queue)` always registers the queue under
the key derived from `(method, params)`; when the key is cached it delivers
the cached value to the queue (as `params + [value]`) and issues no network
request, leaving the cache unchanged; otherwise it issues exactly one
`send_request(method, params)`, stores the response in the cache, and
delivers that response to the queue. -/
theorem nsession_subscribe_spec {V : Type} [DecidableEq V] (st : NSession V)
    (method : String) (params : List V) (q : Nat) (oracle : V) :
    (∀ v, lookupA (method, params) st.cache = some v →
      (st.subscribe method params q oracle).2 = [] ∧
      (st.subscribe method params q oracle).1.cache = st.cache ∧
      lookupA q (st.subscribe method params q oracle).1.queues
        = some ((lookupA q st.queues).getD [] ++ [params ++ [v]]) ∧
      lookupA (method, params) (st.subscribe method params q oracle).1.subscriptions
        = some ((lookupA (method, params) st.subscriptions).getD [] ++ [q])) ∧
    (lookupA (method, params) st.cache = none →
      (st.subscribe method params q oracle).2 = [(method, params)] ∧
      lookupA (method, params) (st.subscribe method params q oracle).1.cache
        = some oracle ∧
      lookupA q (st.subscribe method params q oracle).1.queues
        = some ((lookupA q st.queues).getD [] ++ [params ++ [oracle]]) ∧
      lookupA (method, params) (st.subscribe method params q oracle).1.subscriptions
        = some ((lookupA (method, params) st.subscriptions).getD [] ++ [q])) := by
  constructor
  · intro v hv
    simp [NSession.subscribe, get_hashable_key_for_rpc_call, hv,
      lookupA_pushA_self, lookupA_updateA_self]
  · intro hnone
    simp [NSession.subscribe, get_hashable_key_for_rpc_call, hnone,
      lookupA_pushA_self, lookupA_updateA_self]

/-- Witness for C7 at a concrete input: subscribing on an empty session issues
the single request and caches its response. -/
theorem nsession_subscribe_spec_witness :
    ((⟨[], [], []⟩ : NSession Nat).subscribe "m" [7] 0 42).2 = [("m", [7])] ∧
    lookupA ("m", [7]) ((⟨[], [], []⟩ : NSession Nat).subscribe "m" [7] 0 42).1.cache
      = some 42 :=
  ⟨((nsession_subscribe_spec (⟨[], [], []⟩ : NSession Nat) "m" [7] 0 42).2 rfl).1,
   ((nsession_subscribe_spec (⟨[], [], []⟩ : NSession Nat) "m" [7] 0 42).2 rfl).2.1⟩

/-- C10: `handle_request` raises "unexpected request" for an incoming
notification exactly when its key is absent from `subscriptions`; when the key
is present it always succeeds, updating the cache with the last argument and
leaving the key set unchanged — fanning out to zero queues when the key's
queue list is empty. `unsubscribe` removes only queue references and never a
key, and `subscribe` always installs the key, so a key once subscribed keeps
accepting notifications. -/
theorem nsession_handle_request_spec {V : Type} [DecidableEq V] (st : NSession V)
    (method : String) (args : List V) (r : V) (hr : args.getLast? = some r) :
    (lookupA (method, args.dropLast) st.subscriptions = none →
      st.handle_request method args = .error "unexpected request") ∧
    (∀ qs, lookupA (method, args.dropLast) st.subscriptions = some qs →
      ∃ st2, st.handle_request method args = .ok st2 ∧
        lookupA (method, args.dropLast) st2.cache = some r ∧
        st2.subscriptions = st.subscriptions ∧
        (qs = [] → st2.queues = st.queues)) ∧
    (∀ queue key2,
      (lookupA key2 ((st.unsubscribe queue).subscriptions)).isSome
        = (lookupA key2 st.subscriptions).isSome) ∧
    (∀ q2 oracle,
      (lookupA (method, args.dropLast)
          ((st.subscribe method args.dropLast q2 oracle).1.subscriptions)).isSome
        = true) := by
  refine ⟨?_, ?_, ?_, ?_⟩
  · intro hnone
    unfold NSession.handle_request get_hashable_key_for_rpc_call
    simp only [hr, hnone]
  · intro qs hqs
    unfold NSession.handle_request get_hashable_key_for_rpc_call
    simp only [hr, hqs]
    refine ⟨_, rfl, ?_, rfl, ?_⟩
    · exact lookupA_updateA_self (method, args.dropLast) r st.cache
    · intro hqs0
      subst hqs0
      rfl
  · intro queue key2
    unfold NSession.unsubscribe
    rw [lookupA_map_snd key2 (fun _ v => v.erase queue) st.subscriptions]
    cases lookupA key2 st.subscriptions <;> rfl
  · intro q2 oracle
    cases hc : lookupA (method, args.dropLast) st.cache with
    | none =>
      simp [NSession.subscribe, get_hashable_key_for_rpc_call, hc, lookupA_pushA_self]
    | some v =>
      simp [NSession.subscribe, get_hashable_key_for_rpc_call, hc, lookupA_pushA_self]

/-- Witness for C10 at a concrete input: a notification for a key that was
never subscribed is rejected as unexpected. -/
theorem nsession_handle_request_spec_witness :
    (⟨[], [], []⟩ : NSession Nat).handle_request "m" [7, 42]
      = .error "unexpected request" :=
  (nsession_handle_request_spec (⟨[], [], []⟩ : NSession Nat) "m" [7, 42] 42 rfl).1 rfl

/-- C1: `validate_checkpoint_result` accepts exactly when (a) the byte-reversed
received merkle root equals the byte-reversed `VERIFICATION_BLOCK_MERKLE_ROOT`
and (b) `root_from_proof` applied to the double-SHA256 header hash, the
byte-reversed branches and the header height yields that same expected root;
every input violating (a) or (b) raises. Consequently (for a network with a
positive checkpoint height) `get_block_header` accepts a header at height
`h ≤ max_checkpoint()` only out of a proof envelope that passed this
validation. -/
theorem validate_checkpoint_result_spec (vroot : List Nat)
    (sha256d : List Nat → List Nat)
    (root_from_proof : List Nat → List (List Nat) → Nat → List Nat)
    (cp : Nat) (hcp : 0 < cp) :
    (∀ merkle_root branch header height,
      validate_checkpoint_result vroot sha256d root_from_proof
          merkle_root branch header height = .ok () ↔
        (merkle_root.reverse = vroot.reverse ∧
         root_from_proof (sha256d header) (branch.map List.reverse) height
           = vroot.reverse)) ∧
    (∀ height must res hdr p, height ≤ cp →
      get_block_header cp vroot sha256d root_from_proof height must res
          = .ok (hdr, p) →
      ∃ root branch, res = .envelope root branch hdr ∧ p = true ∧
        validate_checkpoint_result vroot sha256d root_from_proof
          root branch hdr height = .ok ()) := by
  constructor
  · intro merkle_root branch header height
    unfold validate_checkpoint_result
    by_cases h1 : merkle_root.reverse = vroot.reverse
    · by_cases h2 : root_from_proof (sha256d header) (branch.map List.reverse) height
          = vroot.reverse
      · simp [h1, h2]
      · simp [h1, h2]
    · simp [h1]
  · intro height must res hdr p hle hok
    have hngt : ¬(height > cp) := by omega
    have hne : cp ≠ 0 := by omega
    cases res with
    | plain header =>
      have hval : get_block_header cp vroot sha256d root_from_proof height must
          (.plain header) = .error "Expected checkpoint validation data, did not receive it." := by
        simp [get_block_header, hngt, hne]
      rw [hval] at hok
      exact absurd hok (by simp)
    | envelope root branch header =>
      cases hv : validate_checkpoint_result vroot sha256d root_from_proof
          root branch header height with
      | error e =>
        have hval : get_block_header cp vroot sha256d root_from_proof height must
            (.envelope root branch header) = .error e := by
          simp [get_block_header, hngt, hne, hv]
        rw [hval] at hok
        exact absurd hok (by simp)
      | ok u =>
        cases u
        have hval : get_block_header cp vroot sha256d root_from_proof height must
            (.envelope root branch header) = .ok (header, true) := by
          simp [get_block_header, hngt, hne, hv]
        rw [hval] at hok
        simp only [Except.ok.injEq, Prod.mk.injEq] at hok
        obtain ⟨hh, hp⟩ := hok
        subst hh
        exact ⟨root, branch, rfl, hp.symm, hv⟩

/-- Witness for C1 at a concrete input: a height-3 request below checkpoint 5
succeeds only through a validated envelope. -/
theorem validate_checkpoint_result_spec_witness :
    ∃ root branch,
      BlockHeaderResponse.envelope [1] [] [2] = .envelope root branch [2] ∧
      true = true ∧
      validate_checkpoint_result [1] (fun _ => [9]) (fun _ _ _ => [1])
        root branch [2] 3 = .ok () :=
  (validate_checkpoint_result_spec [1] (fun _ => [9]) (fun _ _ _ => [1]) 5
      (by decide)).2
    3 false (.envelope [1] [] [2]) [2] true (by decide) rfl

/-- C4 counterexample: on the chunk-fallback path (chunk does not connect,
height above the checkpoint) the body continues without the bottom-of-loop
progress assert, so an iteration whose `step` lands back on the previous
`(last, height)` pair completes with the pair unchanged — here the loop keeps
repeating `('no_fork', 50)` until fuel runs out — refuting "the pair
`(last, height)` never repeats across two consecutive iterations". -/
theorem sync_until_no_progress_cex :
    sync_until_iter 0 100 (fun _ => (false, 0)) (fun _ => ("no_fork", 50))
        (some "no_fork") 50
      = (.ok (some "no_fork", 50), true) ∧
    sync_until_loop 0 100 (fun _ => (false, 0)) (fun _ => ("no_fork", 50)) 5
        (some "no_fork") 50
      = .error "out of fuel" := by
  constructor <;> rfl

/-- C4 amended: a chunk is requested exactly when `next_height − height > 10`;
every iteration that completes other than through the chunk-fallback path
(chunk fails to connect with `height > max_checkpoint()`, where the source
`continue` skips the progress assert) changes the `(last, height)` pair; and
an iteration completing on a connecting chunk advances `height` to
`(height/2016)·2016 + num_headers`, never exceeding `next_height + 1`. -/
theorem sync_until_iter_spec (cp next_height : Nat) (chunkf : Nat → Bool × Nat)
    (stepf : Nat → String × Nat) (last : Option String) (height : Nat) :
    ((sync_until_iter cp next_height chunkf stepf last height).2 = true ↔
      next_height > height + 10) ∧
    (∀ l h,
      (sync_until_iter cp next_height chunkf stepf last height).1 = .ok (l, h) →
      ¬(next_height > height + 10 ∧ (chunkf height).1 = false ∧ cp < height) →
      (l, h) ≠ (last, height)) ∧
    (next_height > height + 10 → (chunkf height).1 = true →
      ∀ l h,
        (sync_until_iter cp next_height chunkf stepf last height).1 = .ok (l, h) →
        l = some "catchup" ∧ h = height / 2016 * 2016 + (chunkf height).2 ∧
          h ≤ next_height + 1) := by
  refine ⟨by simp [sync_until_iter], ?_, ?_⟩
  · intro l h hok hnot
    replace hok : sync_until_body cp next_height chunkf stepf last height = .ok (l, h) := hok
    by_cases hgt : next_height > height + 10
    · rcases hch : chunkf height with ⟨cc, num⟩
      cases cc with
      | false =>
        by_cases hcp : height ≤ cp
        · have hval : sync_until_body cp next_height chunkf stepf last height
              = .error "server chain conflicts with checkpoints or genesis" := by
            simp [sync_until_body, hgt, hch, hcp]
          rw [hval] at hok
          exact absurd hok (by simp)
        · exact absurd ⟨hgt, by simp [hch], by omega⟩ hnot
      | true =>
        by_cases hover : height / 2016 * 2016 + num ≤ next_height + 1
        · by_cases hprev : last = some "catchup" ∧
              height = height / 2016 * 2016 + num
          · have hval : sync_until_body cp next_height chunkf stepf last height
                = .error "had to prevent infinite loop in interface.sync_until" := by
              simp [sync_until_body, hgt, hch, hover, if_pos hprev]
            rw [hval] at hok
            exact absurd hok (by simp)
          · have hval : sync_until_body cp next_height chunkf stepf last height
                = .ok (some "catchup", height / 2016 * 2016 + num) := by
              simp [sync_until_body, hgt, hch, hover, hprev]
            rw [hval] at hok
            simp only [Except.ok.injEq, Prod.mk.injEq] at hok
            obtain ⟨hl, hh⟩ := hok
            subst hl; subst hh
            intro hcontra
            simp only [Prod.mk.injEq] at hcontra
            exact hprev ⟨hcontra.1.symm, hcontra.2.symm⟩
        · have hval : sync_until_body cp next_height chunkf stepf last height
              = .error "assert height le next_height plus one" := by
            simp [sync_until_body, hgt, hch, hover]
          rw [hval] at hok
          exact absurd hok (by simp)
    · rcases hst : stepf height with ⟨l0, h0⟩
      by_cases hprev : last = some l0 ∧ height = h0
      · have hval : sync_until_body cp next_height chunkf stepf last height
            = .error "had to prevent infinite loop in interface.sync_until" := by
          simp [sync_until_body, hgt, hst, if_pos hprev]
        rw [hval] at hok
        exact absurd hok (by simp)
      · have hval : sync_until_body cp next_height chunkf stepf last height
            = .ok (some l0, h0) := by
          simp [sync_until_body, hgt, hst, hprev]
        rw [hval] at hok
        simp only [Except.ok.injEq, Prod.mk.injEq] at hok
        obtain ⟨hl, hh⟩ := hok
        subst hl; subst hh
        intro hcontra
        simp only [Prod.mk.injEq] at hcontra
        exact hprev ⟨hcontra.1.symm, hcontra.2.symm⟩
  · intro hgt hcc l h hok
    replace hok : sync_until_body cp next_height chunkf stepf last height = .ok (l, h) := hok
    rcases hch : chunkf height with ⟨cc, num⟩
    rw [hch] at hcc
    simp only at hcc
    subst hcc
    by_cases hover : height / 2016 * 2016 + num ≤ next_height + 1
    · by_cases hprev : last = some "catchup" ∧ height = height / 2016 * 2016 + num
      · have hval : sync_until_body cp next_height chunkf stepf last height
            = .error "had to prevent infinite loop in interface.sync_until" := by
          simp [sync_until_body, hgt, hch, hover, if_pos hprev]
        rw [hval] at hok
        exact absurd hok (by simp)
      · have hval : sync_until_body cp next_height chunkf stepf last height
            = .ok (some "catchup", height / 2016 * 2016 + num) := by
          simp [sync_until_body, hgt, hch, hover, hprev]
        rw [hval] at hok
        simp only [Except.ok.injEq, Prod.mk.injEq] at hok
        obtain ⟨hl, hh⟩ := hok
        refine ⟨hl.symm, ?_, by omega⟩
        exact hh.symm
    · have hval : sync_until_body cp next_height chunkf stepf last height
          = .error "assert height le next_height plus one" := by
        simp [sync_until_body, hgt, hch, hover]
      rw [hval] at hok
      exact absurd hok (by simp)

/-- Witness for C4 (amended) at a concrete input: a connecting chunk of 30
headers from height 50 with tip 100 advances to height 30 = 0·2016 + 30,
within the overshoot bound. -/
theorem sync_until_iter_spec_witness :
    (some "catchup" : Option String) = some "catchup" ∧
    (30 : Nat) = 50 / 2016 * 2016 + 30 ∧ (30 : Nat) ≤ 100 + 1 :=
  (sync_until_iter_spec 0 100 (fun _ => (true, 30)) (fun _ => ("x", 0)) none 50).2.2
    (by decide) rfl (some "catchup") 30 rfl

theorem getLast?_cons_of_ne_nil {α : Type} (a : α) (l : List α) (h : l ≠ []) :
    (a :: l).getLast? = l.getLast? := by
  cases l with
  | nil => exact absurd rfl h
  | cons b t => simp [List.getLast?_cons_cons]

theorem shbLoop_spec (cp tip : Int) (checkO connectO : Int → Bool) :
    ∀ (fuel : Nat) (bad height : Int), checkO bad = false →
      ((shbLoop cp tip checkO connectO fuel bad height).1 ≠ .badCheck) ∧
      (0 < fuel →
        (shbLoop cp tip checkO connectO fuel bad height).2.head?
          = some (if height ≤ cp then cp else height)) ∧
      (∀ i pi pj,
        (shbLoop cp tip checkO connectO fuel bad height).2.get? i = some pi →
        (shbLoop cp tip checkO connectO fuel bad height).2.get? (i + 1) = some pj →
        checkO pi = false ∧ connectO pi = false ∧ cp < pi ∧
        pj = (if tip - 2 * (tip - pi) ≤ cp then cp else tip - 2 * (tip - pi))) ∧
      (∀ ht bd, (shbLoop cp tip checkO connectO fuel bad height).1 = .done ht bd →
        (checkO ht || connectO ht) = true ∧
        (shbLoop cp tip checkO connectO fuel bad height).2.getLast? = some ht ∧
        ((shbLoop cp tip checkO connectO fuel bad height).2.length = 1 → bd = bad) ∧
        (2 ≤ (shbLoop cp tip checkO connectO fuel bad height).2.length →
          (shbLoop cp tip checkO connectO fuel bad height).2.get?
            ((shbLoop cp tip checkO connectO fuel bad height).2.length - 2)
            = some bd)) ∧
      ((shbLoop cp tip checkO connectO fuel bad height).1 = .conflict →
        (shbLoop cp tip checkO connectO fuel bad height).2.getLast? = some cp ∧
        checkO cp = false ∧ connectO cp = false) := by
  intro fuel
  induction fuel with
  | zero =>
    intro bad height hbad
    refine ⟨by simp [shbLoop], ?_, ?_, ?_, ?_⟩
    · intro h0
      exact absurd h0 (by decide)
    · intro i pi pj h1 _
      simp [shbLoop] at h1
    · intro ht bd hd
      simp [shbLoop] at hd
    · intro hd
      simp [shbLoop] at hd
  | succ fuel ih =>
    intro bad height hbad
    by_cases hcp : height ≤ cp
    · by_cases hfetch : (checkO cp || connectO cp) = true
      · have heq : shbLoop cp tip checkO connectO (fuel + 1) bad height
            = (.done cp bad, [cp]) := by
          simp [shbLoop, hcp, hfetch, hbad]
        rw [heq]
        refine ⟨by simp, by intro _; simp [hcp], ?_, ?_, by simp⟩
        · intro i pi pj h1 h2
          rcases i with _ | i
          · simp at h2
          · simp at h1
        · intro ht bd hd
          simp only [ShbOut.done.injEq] at hd
          obtain ⟨h1, h2⟩ := hd
          subst h1; subst h2
          exact ⟨hfetch, by simp, fun _ => rfl, by intro h2; simp at h2⟩
      · rw [Bool.not_eq_true] at hfetch
        obtain ⟨hc1, hc2⟩ : checkO cp = false ∧ connectO cp = false := by
          revert hfetch
          cases checkO cp <;> cases connectO cp <;> simp
        have heq : shbLoop cp tip checkO connectO (fuel + 1) bad height
            = (.conflict, [cp]) := by
          simp [shbLoop, hcp, hc1, hc2]
        rw [heq]
        refine ⟨by simp, by intro _; simp [hcp], ?_, ?_, ?_⟩
        · intro i pi pj h1 h2
          rcases i with _ | i
          · simp at h2
          · simp at h1
        · intro ht bd hd
          simp at hd
        · intro _
          exact ⟨by simp, hc1, hc2⟩
    · by_cases hfetch : (checkO height || connectO height) = true
      · have heq : shbLoop cp tip checkO connectO (fuel + 1) bad height
            = (.done height bad, [height]) := by
          simp [shbLoop, hcp, hfetch, hbad]
        rw [heq]
        refine ⟨by simp, by intro _; simp [hcp], ?_, ?_, by simp⟩
        · intro i pi pj h1 h2
          rcases i with _ | i
          · simp at h2
          · simp at h1
        · intro ht bd hd
          simp only [ShbOut.done.injEq] at hd
          obtain ⟨h1, h2⟩ := hd
          subst h1; subst h2
          exact ⟨hfetch, by simp, fun _ => rfl, by intro h2; simp at h2⟩
      · rw [Bool.not_eq_true] at hfetch
        obtain ⟨hc1, hc2⟩ : checkO height = false ∧ connectO height = false := by
          revert hfetch
          cases checkO height <;> cases connectO height <;> simp
        have heq : shbLoop cp tip checkO connectO (fuel + 1) bad height
            = ((shbLoop cp tip checkO connectO fuel height
                  (tip - 2 * (tip - height))).1,
               height :: (shbLoop cp tip checkO connectO fuel height
                  (tip - 2 * (tip - height))).2) := by
          simp [shbLoop, hcp, hc1, hc2]
        obtain ⟨ih1, ih2, ih3, ih4, ih5⟩ :=
          ih height (tip - 2 * (tip - height)) hc1
        rw [heq]
        refine ⟨ih1, by intro _; simp [hcp], ?_, ?_, ?_⟩
        · intro i pi pj h1 h2
          rcases i with _ | i
          · simp only [List.get?_cons_zero, Option.some.injEq] at h1
            subst h1
            simp only [List.get?_cons_succ] at h2
            cases fuel with
            | zero =>
              simp [shbLoop] at h2
            | succ f =>
              have hhd := ih2 (by omega)
              have hpj : (shbLoop cp tip checkO connectO (f + 1) height
                  (tip - 2 * (tip - height))).2.head? = some pj := by
                cases hL : (shbLoop cp tip checkO connectO (f + 1) height
                    (tip - 2 * (tip - height))).2 with
                | nil => rw [hL] at h2; simp at h2
                | cons b t =>
                  rw [hL] at h2
                  simp at h2
                  simp [hL, h2]
              rw [hhd] at hpj
              simp only [Option.some.injEq] at hpj
              exact ⟨hc1, hc2, by omega, hpj.symm⟩
          · simp only [List.get?_cons_succ] at h1 h2
            exact ih3 i pi pj h1 h2
        · intro ht bd hd
          obtain ⟨hfok, hlast, hlen1, hlen2⟩ := ih4 ht bd hd
          have hne : (shbLoop cp tip checkO connectO fuel height
              (tip - 2 * (tip - height))).2 ≠ [] := by
            intro h0
            rw [h0] at hlast
            simp at hlast
          refine ⟨hfok, ?_, ?_, ?_⟩
          · rw [getLast?_cons_of_ne_nil _ _ hne]
            exact hlast
          · intro h1
            simp only [List.length_cons] at h1
            have : (shbLoop cp tip checkO connectO fuel height
                (tip - 2 * (tip - height))).2.length = 0 := by omega
            exact absurd (List.length_eq_zero.mp this) hne
          · intro h2
            simp only [List.length_cons]
            rcases hlen : (shbLoop cp tip checkO connectO fuel height
                (tip - 2 * (tip - height))).2.length with _ | k
            · exact absurd (List.length_eq_zero.mp hlen) hne
            · rcases k with _ | k
              · have hbd : bd = height := hlen1 hlen
                simp [hbd]
              · have hsk := hlen2 (by omega)
                rw [hlen] at hsk
                have hidx1 : k + 1 + 1 - 2 = k := by omega
                rw [hidx1] at hsk
                have hidx2 : k + 1 + 1 + 1 - 2 = k + 1 := by omega
                rw [hidx2, List.get?_cons_succ]
                exact hsk
        · intro hd
          obtain ⟨hlast, hk1, hk2⟩ := ih5 hd
          have hne : (shbLoop cp tip checkO connectO fuel height
              (tip - 2 * (tip - height))).2 ≠ [] := by
            intro h0
            rw [h0] at hlast
            simp at hlast
          refine ⟨?_, hk1, hk2⟩
          rw [getLast?_cons_of_ne_nil _ _ hne]
          exact hlast

/-- C2: given a header at height `h` that neither checks against a known chain
nor connects, `_search_headers_backwards` seeds `bad = h` (when the run ends
after a single probe, the returned `bad` is `h`; in general `bad` is the
second-to-last probe), starts probing at `min(local_max + 1, h - 1)` (clamped
to `max_checkpoint()` when already at or below it), on each failed probe
retreats to `tip − 2·(tip − probe_h)` — every non-final probe neither checks
nor connects, lies above the checkpoint, and the next probe is the clamp of
its retreat — and when the checkpoint-clamped fetch still neither checks nor
connects it raises `GracefulDisconnect("server chain conflicts with
checkpoints")`: the `conflict` outcome occurs exactly with a final failed
probe at `max_checkpoint()`. -/
theorem search_headers_backwards_spec (cp tip localMax : Int)
    (checkO connectO : Int → Bool) (fuel : Nat) (h : Int)
    (hcheck : checkO h = false) (hconn : connectO h = false) :
    (0 < fuel →
      (search_headers_backwards cp tip localMax checkO connectO fuel h).2.head?
        = some (if min (localMax + 1) (h - 1) ≤ cp then cp
                else min (localMax + 1) (h - 1))) ∧
    (∀ i pi pj,
      (search_headers_backwards cp tip localMax checkO connectO fuel h).2.get? i
        = some pi →
      (search_headers_backwards cp tip localMax checkO connectO fuel h).2.get? (i + 1)
        = some pj →
      checkO pi = false ∧ connectO pi = false ∧ cp < pi ∧
      pj = (if tip - 2 * (tip - pi) ≤ cp then cp else tip - 2 * (tip - pi))) ∧
    (∀ ht bd,
      (search_headers_backwards cp tip localMax checkO connectO fuel h).1
        = .done ht bd →
      (checkO ht || connectO ht) = true ∧
      ((search_headers_backwards cp tip localMax checkO connectO fuel h).2.length = 1 →
        bd = h) ∧
      (2 ≤ (search_headers_backwards cp tip localMax checkO connectO fuel h).2.length →
        (search_headers_backwards cp tip localMax checkO connectO fuel h).2.get?
          ((search_headers_backwards cp tip localMax checkO connectO fuel h).2.length - 2)
          = some bd)) ∧
    ((search_headers_backwards cp tip localMax checkO connectO fuel h).1 = .conflict →
      (search_headers_backwards cp tip localMax checkO connectO fuel h).2.getLast?
        = some cp ∧
      checkO cp = false ∧ connectO cp = false) ∧
    (search_headers_backwards cp tip localMax checkO connectO fuel h).1
      ≠ .badCheck := by
  have hunf : search_headers_backwards cp tip localMax checkO connectO fuel h
      = shbLoop cp tip checkO connectO fuel h (min (localMax + 1) (h - 1)) := by
    simp [search_headers_backwards, hcheck]
  obtain ⟨s1, s2, s3, s4, s5⟩ :=
    shbLoop_spec cp tip checkO connectO fuel h (min (localMax + 1) (h - 1)) hcheck
  rw [hunf]
  exact ⟨s2, s3, fun ht bd hd => ⟨(s4 ht bd hd).1, (s4 ht bd hd).2.2.1,
    (s4 ht bd hd).2.2.2⟩, s5, s1⟩

/-- Probe oracle for the C2 witness: only height 10 checks against a chain. -/
def shbCheckOracle : Int → Bool := fun x => decide (x = 10)

/-- Connect oracle for the C2 witness: nothing connects. -/
def shbConnectOracle : Int → Bool := fun _ => false

/-- Witness for C2 at a concrete run (checkpoint 10, tip 100, local max 80,
start 90): the probes are 81, 62, 24, then the clamp at 10. -/
theorem search_headers_backwards_spec_witness :
    (search_headers_backwards 10 100 80 shbCheckOracle shbConnectOracle 20 90).2.head?
      = some 81 := by
  have hw := (search_headers_backwards_spec 10 100 80 shbCheckOracle shbConnectOracle
    20 90 (by decide) rfl).1 (by decide)
  simpa using hw

end ElectrumNmc
